import Mathlib

/-!
Shallow embedding of `stm32pio/core/settings.py`.

Modelling conventions:
- Paths are modelled as normalized POSIX path strings; `Path(s)` and `str(p)`
  round-trip as the identity on such strings, and `Path.__truediv__` is the
  `pjoin` function below (which reproduces `pathlib`'s treatment of empty
  components).
- The environment is a partial map from variable names to string values
  (`os.environ.get` returning `None` is `Option.none`).
- The filesystem is an oracle `FS`.  `Path.exists()` and `Path.is_dir()` can
  raise (e.g. `PermissionError` from `stat`), so they return `Option Bool`,
  with `none` meaning "the probe raises"; `os.access(_, X_OK)` and
  `shutil.which` do not raise and are total.
- Python code that can let an exception escape is modelled in `Except Unit`;
  a `try/except: continue` in the source swallows the `none`/error outcome.
-/

set_option autoImplicit false

namespace Stm32pioSettings

/-- The process environment: `os.environ.get`. -/
structure Env where
  get : String → Option String

/-- Filesystem / host oracle.  `pathExists p = none` (resp. `isDir p = none`,
`readText p = none`) means the corresponding `pathlib` call raises an
exception: `Path.read_text()` can raise even after `exists()` returned true
(e.g. `IsADirectoryError`, `PermissionError`). -/
structure FS where
  pathExists : String → Option Bool
  isDir : String → Option Bool
  isExec : String → Bool
  which : String → Option String
  readText : String → Option String
  home : String
  moduleDir : String

/-- `pathlib` path join (`Path(a) / b`), on normalized POSIX strings:
empty components disappear. -/
def pjoin (a b : String) : String :=
  if a = "" then b else if b = "" then a else a ++ "/" ++ b

/-- `Path.parent` on normalized POSIX strings: drop the last component;
`"a"` has parent `"."`, `"/a"` has parent `"/"`. -/
def parent (p : String) : String :=
  match p.toList.reverse.dropWhile (fun c => c ≠ '/') with
  | [] => "."
  | _ :: rest => if rest = [] then "/" else String.mk rest.reverse

/-- The fixed priority list of candidate environment variables probed by
`_find_cubemx_executable` (source lines 29-32). -/
def env_vars : List String :=
  ["STM32CUBEMX_HOME", "STM32_CUBEMX_HOME", "STM32_CUBEMX", "STM32CUBEMX",
   "STM32_CUBEMX_PATH", "STM32CUBEMX_PATH"]

/-- The three conventional executable names probed inside a directory named by
an environment variable (source lines 43-47). -/
def dirCandidates (p : String) : List String :=
  [pjoin p "STM32CubeMX",
   pjoin p "STM32CubeMX.exe",
   pjoin (pjoin (pjoin (pjoin p "STM32CubeMX.app") "Contents") "MacOS") "STM32CubeMX"]

/-- Source lines 48-50: `for c in candidates: if c.exists(): return str(c)`.
The `exists` probe is not inside a `try`, so a raising probe propagates. -/
def probeCandidates (fs : FS) : List String → Except Unit (Option String)
  | [] => .ok none
  | c :: rest =>
    match fs.pathExists c with
    | none => .error ()
    | some true => .ok (some c)
    | some false => probeCandidates fs rest

/-- One iteration of the environment-variable loop of `_find_cubemx_executable`
(source lines 35-52): `.ok (some r)` means `return r`, `.ok none` means the
loop continues with the next variable, `.error` means an exception escapes. -/
def probeEnvVar (fs : FS) (env : Env) (v : String) : Except Unit (Option String) :=
  match env.get v with
  | none => .ok none
  | some val =>
    if val = "" then .ok none
    else
      match fs.pathExists val with
      | none => .error ()
      | some false => .ok none
      | some true =>
        match fs.isDir val with
        | none => .error ()
        | some true => probeCandidates fs (dirCandidates val)
        | some false => .ok (some val)

/-- The whole environment-variable stage: `for v in env_vars: ...`. -/
def envStage (fs : FS) (env : Env) : List String → Except Unit (Option String)
  | [] => .ok none
  | v :: rest =>
    match probeEnvVar fs env v with
    | .error e => .error e
    | .ok (some r) => .ok (some r)
    | .ok none => envStage fs env rest

/-- The `shutil.which` stage (source lines 54-58). -/
def pathStage (os : String) (fs : FS) : Option String :=
  let exec_name := if os = "Windows" then "STM32CubeMX.exe" else "STM32CubeMX"
  match fs.which exec_name with
  | some w => some w
  | none => fs.which "STM32CubeMX"

/-- The per-OS conventional installation locations (source lines 60-78). -/
def commonLocations (os : String) (env : Env) (fs : FS) : List String :=
  if os = "Windows" then
    ["C:/Program Files/STMicroelectronics/STM32Cube/STM32CubeMX/STM32CubeMX.exe",
     "C:/Program Files (x86)/STMicroelectronics/STM32Cube/STM32CubeMX/STM32CubeMX.exe",
     "C:/Program Files/STMicroelectronics/STM32CubeMX/STM32CubeMX.exe",
     pjoin (pjoin (pjoin ((env.get "LOCALAPPDATA").getD "") "Programs") "STM32CubeMX") "STM32CubeMX.exe"]
  else if os = "Darwin" then
    ["/Applications/STMicroelectronics/STM32CubeMX.app/Contents/MacOS/STM32CubeMX"]
  else if os = "Linux" then
    [pjoin (pjoin fs.home "STM32CubeMX") "STM32CubeMX",
     "/usr/local/bin/STM32CubeMX",
     "/usr/bin/STM32CubeMX"]
  else []

/-- Source lines 80-86: the conventional-locations loop.  Here every probe is
inside `try/except Exception: continue`, so a raising probe is skipped. -/
def probeCommon (fs : FS) : List String → Option String
  | [] => none
  | c :: rest =>
    match fs.pathExists c with
    | some true => some c
    | _ => probeCommon fs rest

/-- `_find_cubemx_executable` (source lines 20-87). -/
def find_cubemx_executable (os : String) (env : Env) (fs : FS) : Except Unit String :=
  match envStage fs env env_vars with
  | .error e => .error e
  | .ok (some r) => .ok r
  | .ok none =>
    match pathStage os fs with
    | some w => .ok w
    | none =>
      match probeCommon fs (commonLocations os env fs) with
      | some r => .ok r
      | none => .ok ""

/-- The fixed candidate subpaths probed by `_find_java_bundled_with_cubemx`
(source lines 100-107). -/
def javaCandidates (os : String) (p : String) : List String :=
  let jname := if os = "Windows" then "java.exe" else "java"
  let install_dir := parent p
  [pjoin (pjoin (pjoin install_dir "jre") "bin") jname,
   pjoin (pjoin (pjoin (parent install_dir) "jre") "bin") jname,
   pjoin (pjoin (pjoin (parent p) "jre") "bin") "java"]

/-- Source lines 109-114: first candidate that exists and is executable; every
probe is inside `try/except Exception: continue`. -/
def firstExecOk (fs : FS) : List String → String
  | [] => ""
  | c :: rest =>
    match fs.pathExists c with
    | some true => if fs.isExec c then c else firstExecOk fs rest
    | _ => firstExecOk fs rest

/-- `_find_java_bundled_with_cubemx` (source lines 90-116). -/
def find_java_bundled_with_cubemx (os : String) (fs : FS) (cubemx_path : String) : String :=
  if cubemx_path = "" then "" else firstExecOk fs (javaCandidates os cubemx_path)

/-- The hardcoded platform-specific fallback for `cubemx_cmd`
(source lines 124-128; note the `MacOs` spelling in the Darwin literal). -/
def fallbackCubemx (os : String) (home : String) : String :=
  if os = "Darwin" then
    "/Applications/STMicroelectronics/STM32CubeMX.app/Contents/MacOs/STM32CubeMX"
  else if os = "Linux" then pjoin home "STM32CubeMX/STM32CubeMX"
  else if os = "Windows" then
    "C:/Program Files/STMicroelectronics/STM32Cube/STM32CubeMX/STM32CubeMX.exe"
  else ""

/-- `_detected_cubemx` (source lines 121-128). -/
def detected_cubemx (os : String) (env : Env) (fs : FS) : Except Unit String :=
  match find_cubemx_executable os env fs with
  | .error e => .error e
  | .ok r => .ok (if r = "" then fallbackCubemx os fs.home else r)

/-- `_detected_java` (source lines 130-134). -/
def detected_java (os : String) (fs : FS) (cubemx : String) : String :=
  let d := find_java_bundled_with_cubemx os fs cubemx
  if d = "" then
    if os = "Windows" then
      "C:/Program Files/STMicroelectronics/STM32Cube/STM32CubeMX/jre/bin/java.exe"
    else "None"
  else d

/-- The `app` section of `config_default`. -/
structure AppConfig where
  platformio_cmd : String
  cubemx_cmd : String
  java_cmd : String
deriving DecidableEq, Repr

/-- The `project` section of `config_default`. -/
structure ProjectConfig where
  cubemx_script_content : String
  platformio_ini_patch_content : String
  board : String
  ioc_file : String
  cleanup_ignore : String
  cleanup_use_git : Bool
  inspect_ioc : Bool
deriving DecidableEq, Repr

/-- `config_default`, with its two sections. -/
structure Config where
  app : AppConfig
  project : ProjectConfig
deriving DecidableEq, Repr

/-- `inspect.cleandoc` result of the CubeMX script template (source lines 162-166). -/
def cubemx_script_content_default : String :=
  "config load ${ioc_file_absolute_path}\ngenerate code ${project_dir_absolute_path}\nexit"

/-- `inspect.cleandoc` result of the platformio.ini patch template
(source lines 172-176). -/
def platformio_ini_patch_default : String :=
  "[platformio]\ninclude_dir = Inc\nsrc_dir = Src"

/-- The static `project` section of `config_default` (source lines 159-187). -/
def defaultProject : ProjectConfig :=
  { cubemx_script_content := cubemx_script_content_default
    platformio_ini_patch_content := platformio_ini_patch_default
    board := ""
    ioc_file := ""
    cleanup_ignore := ""
    cleanup_use_git := false
    inspect_ioc := true }

/-- `config_default` as first constructed (source lines 121-188), before the CI
block at the bottom of the module runs. -/
def baseConfig (os : String) (env : Env) (fs : FS) : Except Unit Config :=
  match detected_cubemx os env fs with
  | .error e => .error e
  | .ok cubemx =>
    .ok { app := { platformio_cmd := "platformio"
                   cubemx_cmd := cubemx
                   java_cmd := detected_java os fs cubemx }
          project := defaultProject }

/-- The CI replacement for the `app` section (source lines 220-224). -/
def ciApp (cache : String) : AppConfig :=
  { platformio_cmd := "platformio"
    cubemx_cmd := pjoin cache "STM32CubeMX.exe"
    java_cmd := "java" }

/-- `patch_mixin` computation (source lines 226-233).  `TEST_FIXTURES_PATH`
always resolves thanks to its default (`Path(__file__).parent /
'../../tests/fixtures'`); neither the `exists()` probe on the lock file nor
the `read_text()` call is guarded, so either can raise. -/
def ciPatchMixin (env : Env) (fs : FS) : Except Unit String :=
  let fixtures := (env.get "STM32PIO_TEST_FIXTURES").getD
    (pjoin fs.moduleDir "../../tests/fixtures")
  match env.get "STM32PIO_TEST_CASE" with
  | none => .ok ""
  | some tc =>
    match fs.pathExists (pjoin (pjoin fixtures tc) "platformio.ini.lockfile") with
    | none => .error ()
    | some true =>
      match fs.readText (pjoin (pjoin fixtures tc) "platformio.ini.lockfile") with
      | none => .error ()
      | some t => .ok ("\n\n" ++ t)
    | some false => .ok ""

/-- The CI override block (source lines 216-234): triggered by the presence of
`PIPELINE_WORKSPACE`; `Path(os.environ.get('STM32PIO_CUBEMX_CACHE_FOLDER'))`
raises `TypeError` when that variable is absent. -/
def ciOverride (env : Env) (fs : FS) (cfg : Config) : Except Unit Config :=
  match env.get "PIPELINE_WORKSPACE" with
  | none => .ok cfg
  | some _ =>
    match env.get "STM32PIO_CUBEMX_CACHE_FOLDER" with
    | none => .error ()
    | some cache =>
      match ciPatchMixin env fs with
      | .error e => .error e
      | .ok mixin =>
        .ok { app := ciApp cache
              project := { cfg.project with
                platformio_ini_patch_content :=
                  cfg.project.platformio_ini_patch_content ++ mixin } }

/-- Loading the whole module: build `config_default`, then run the CI block. -/
def loadSettings (os : String) (env : Env) (fs : FS) : Except Unit Config :=
  match baseConfig os env fs with
  | .error e => .error e
  | .ok cfg => ciOverride env fs cfg

/-- A candidate path that exists and carries execute permission. -/
def okCand (fs : FS) (c : String) : Prop :=
  fs.pathExists c = some true ∧ fs.isExec c = true

instance (fs : FS) (c : String) : Decidable (okCand fs c) := by
  unfold okCand; infer_instance

/-! Helper lemmas. -/

theorem pjoin_ne_empty {a b : String} (hb : b ≠ "") : pjoin a b ≠ "" := by
  unfold pjoin
  by_cases ha : a = ""
  · simp [ha, hb]
  · rw [if_neg ha, if_neg hb]
    intro h
    have hlen := congrArg String.length h
    have h1 : (a ++ "/" ++ b).length = a.length + 1 + b.length := by
      simp only [String.length_append]
      have hsep : ("/" : String).length = 1 := rfl
      omega
    have h0 : ("" : String).length = 0 := rfl
    rw [h1, h0] at hlen
    omega

theorem probeCandidates_all_false (fs : FS) (l : List String)
    (h : ∀ c ∈ l, fs.pathExists c = some false) :
    probeCandidates fs l = Except.ok none := by
  induction l with
  | nil => rfl
  | cons c rest ih =>
    simp only [probeCandidates, h c (by simp)]
    exact ih fun x hx => h x (by simp [hx])

theorem probeCandidates_no_error (fs : FS) (l : List String)
    (h : ∀ c ∈ l, fs.pathExists c ≠ none) :
    ∃ o, probeCandidates fs l = Except.ok o := by
  induction l with
  | nil => exact ⟨none, rfl⟩
  | cons c rest ih =>
    simp only [probeCandidates]
    cases hc : fs.pathExists c with
    | none => exact absurd hc (h c (by simp))
    | some b =>
      cases b
      · exact ih fun x hx => h x (by simp [hx])
      · exact ⟨some c, rfl⟩

theorem probeEnvVar_no_error (fs : FS) (env : Env) (v : String)
    (hex : ∀ p, fs.pathExists p ≠ none) (hdir : ∀ p, fs.isDir p ≠ none) :
    ∃ o, probeEnvVar fs env v = Except.ok o := by
  simp only [probeEnvVar]
  cases env.get v with
  | none => exact ⟨none, rfl⟩
  | some val =>
    by_cases hv : val = ""
    · exact ⟨none, by simp [hv]⟩
    · cases he : fs.pathExists val with
      | none => exact absurd he (hex val)
      | some b =>
        cases b
        · exact ⟨none, by simp [hv, he]⟩
        · cases hd : fs.isDir val with
          | none => exact absurd hd (hdir val)
          | some b2 =>
            cases b2
            · exact ⟨some val, by simp [hv, he, hd]⟩
            · obtain ⟨o, ho⟩ :=
                probeCandidates_no_error fs (dirCandidates val) fun c _ => hex c
              exact ⟨o, by simp [hv, he, hd, ho]⟩

theorem envStage_no_error (fs : FS) (env : Env) (l : List String)
    (hex : ∀ p, fs.pathExists p ≠ none) (hdir : ∀ p, fs.isDir p ≠ none) :
    ∃ o, envStage fs env l = Except.ok o := by
  induction l with
  | nil => exact ⟨none, rfl⟩
  | cons v rest ih =>
    obtain ⟨o, ho⟩ := probeEnvVar_no_error fs env v hex hdir
    simp only [envStage, ho]
    cases o with
    | none => exact ih
    | some r => exact ⟨some r, rfl⟩

theorem find_cubemx_no_error (os : String) (env : Env) (fs : FS)
    (hex : ∀ p, fs.pathExists p ≠ none) (hdir : ∀ p, fs.isDir p ≠ none) :
    ∃ r, find_cubemx_executable os env fs = Except.ok r := by
  obtain ⟨o, ho⟩ := envStage_no_error fs env env_vars hex hdir
  simp only [find_cubemx_executable, ho]
  cases o with
  | some r => exact ⟨r, rfl⟩
  | none =>
    cases pathStage os fs
    · cases probeCommon fs (commonLocations os env fs)
      · exact ⟨"", rfl⟩
      · exact ⟨_, rfl⟩
    · exact ⟨_, rfl⟩

theorem envStage_append_skip (fs : FS) (env : Env) (l₁ l₂ : List String)
    (h : ∀ w ∈ l₁, probeEnvVar fs env w = Except.ok none) :
    envStage fs env (l₁ ++ l₂) = envStage fs env l₂ := by
  induction l₁ with
  | nil => rfl
  | cons x xs ih =>
    simp only [List.cons_append, envStage, h x (by simp)]
    exact ih fun w hw => h w (by simp [hw])

theorem probeEnvVar_congr (fs : FS) (e esnd : Env) (v : String)
    (h : e.get v = esnd.get v) :
    probeEnvVar fs e v = probeEnvVar fs esnd v := by
  simp only [probeEnvVar, h]

theorem envStage_congr (fs : FS) (e esnd : Env) (l : List String)
    (h : ∀ w ∈ l, probeEnvVar fs e w = probeEnvVar fs esnd w) :
    envStage fs e l = envStage fs esnd l := by
  induction l with
  | nil => rfl
  | cons v rest ih =>
    simp only [envStage, h v (by simp)]
    cases probeEnvVar fs esnd v with
    | error e0 => rfl
    | ok o =>
      cases o with
      | none => exact ih fun w hw => h w (by simp [hw])
      | some r => rfl

theorem firstExecOk_eq_empty_iff (fs : FS) (l : List String)
    (hne : ∀ c ∈ l, c ≠ "") :
    firstExecOk fs l = "" ↔ ∀ c ∈ l, ¬ okCand fs c := by
  induction l with
  | nil => simp [firstExecOk]
  | cons c rest ih =>
    have ihr := ih fun x hx => hne x (by simp [hx])
    simp only [firstExecOk]
    cases hc : fs.pathExists c with
    | none =>
      rw [ihr]
      constructor
      · intro h x hx
        rcases List.mem_cons.mp hx with rfl | hx2
        · intro hok; rw [hok.1] at hc; cases hc
        · exact h x hx2
      · intro h x hx; exact h x (by simp [hx])
    | some b =>
      cases b
      · rw [ihr]
        constructor
        · intro h x hx
          rcases List.mem_cons.mp hx with rfl | hx2
          · intro hok; rw [hok.1] at hc; cases hc
          · exact h x hx2
        · intro h x hx; exact h x (by simp [hx])
      · cases hx : fs.isExec c with
        | true =>
          simp only [hx, if_true]
          constructor
          · intro h; exact absurd h (hne c (by simp))
          · intro h; exact absurd ⟨hc, hx⟩ (h c (by simp))
        | false =>
          simp only [hx, Bool.false_eq_true, if_false]
          rw [ihr]
          constructor
          · intro h x hxm
            rcases List.mem_cons.mp hxm with rfl | hx2
            · intro hok; rw [hok.2] at hx; cases hx
            · exact h x hx2
          · intro h x hxm; exact h x (by simp [hxm])

theorem firstExecOk_append_first (fs : FS) (l₁ l₂ : List String) (c : String)
    (hok : okCand fs c) (hl : ∀ x ∈ l₁, ¬ okCand fs x) :
    firstExecOk fs (l₁ ++ c :: l₂) = c := by
  induction l₁ with
  | nil =>
    simp only [List.nil_append, firstExecOk, hok.1, hok.2, if_true]
  | cons x xs ih =>
    have hx := hl x (by simp)
    simp only [List.cons_append, firstExecOk]
    cases hpe : fs.pathExists x with
    | none => exact ih fun y hy => hl y (by simp [hy])
    | some b =>
      cases b
      · exact ih fun y hy => hl y (by simp [hy])
      · have hxe : fs.isExec x = false := by
          cases hq : fs.isExec x
          · rfl
          · exact absurd ⟨hpe, hq⟩ hx
        simp only [hxe, Bool.false_eq_true, if_false]
        exact ih fun y hy => hl y (by simp [hy])

theorem javaCandidates_ne_empty (os p : String) :
    ∀ c ∈ javaCandidates os p, c ≠ "" := by
  intro c hc
  have hj : (if os = "Windows" then "java.exe" else "java") ≠ "" := by
    split <;> decide
  simp only [javaCandidates, List.mem_cons, List.not_mem_nil, or_false] at hc
  rcases hc with rfl | rfl | rfl
  · exact pjoin_ne_empty hj
  · exact pjoin_ne_empty hj
  · exact pjoin_ne_empty (by decide)

theorem mem_env_vars_ne_localappdata {v : String} (hv : v ∈ env_vars) :
    v ≠ "LOCALAPPDATA" := by
  intro h
  subst h
  revert hv
  decide

/-! Concrete environments and filesystems used as witnesses. -/

/-- An environment with no variables set. -/
def envEmpty : Env := ⟨fun _ => none⟩

/-- A filesystem on which every probe succeeds and reports absence. -/
def fsNone : FS :=
  { pathExists := fun _ => some false
    isDir := fun _ => some false
    isExec := fun _ => false
    which := fun _ => none
    readText := fun _ => some ""
    home := "/home/user"
    moduleDir := "/mod" }

/-- CI marker set, but no cache-folder variable. -/
def envCIbad : Env :=
  ⟨fun s => if s = "PIPELINE_WORKSPACE" then some "ws" else none⟩

/-- CI marker and cache-folder variable both set. -/
def envCI : Env :=
  ⟨fun s =>
    if s = "PIPELINE_WORKSPACE" then some "ws"
    else if s = "STM32PIO_CUBEMX_CACHE_FOLDER" then some "/cache"
    else none⟩

/-- First candidate variable set to a path whose existence probe raises. -/
def envProbeRaise : Env :=
  ⟨fun s => if s = "STM32CUBEMX_HOME" then some "/blocked" else none⟩

/-- A filesystem on which probing `/blocked` raises (`none`). -/
def fsProbeRaise : FS :=
  { pathExists := fun p => if p = "/blocked" then none else some false
    isDir := fun _ => some false
    isExec := fun _ => false
    which := fun _ => none
    readText := fun _ => some ""
    home := "/home/user"
    moduleDir := "/mod" }

deriving instance DecidableEq for Except

/-- Claim C1 (corrected), counterexample: with the CI marker variable
`PIPELINE_WORKSPACE` present and `STM32PIO_CUBEMX_CACHE_FOLDER` absent,
loading the module raises (`Path(None)` at source line 222), even though
every filesystem probe succeeds; so loading is not error-free for every
environment, and the override layer does not tolerate every other variable
being absent. -/
theorem ci_marker_without_cache_raises :
    loadSettings "Linux" envCIbad fsNone = Except.error () := by rfl

/-- Claim C1 (amended): loading the configuration module raises no error
provided every filesystem access completes without raising — the
existence/type probes and the unguarded lock-file `read_text()` at source
line 233 — and, whenever the CI marker variable is present, the cache-folder
variable is also set; every other failure mode (missing executable, missing
variable, missing fixture file) degrades to a sentinel value or a no-op. -/
theorem load_no_error_of_probes_ok (os : String) (env : Env) (fs : FS)
    (hex : ∀ p, fs.pathExists p ≠ none)
    (hdir : ∀ p, fs.isDir p ≠ none)
    (hread : ∀ p, fs.readText p ≠ none)
    (hci : env.get "PIPELINE_WORKSPACE" ≠ none →
      env.get "STM32PIO_CUBEMX_CACHE_FOLDER" ≠ none) :
    ∃ c, loadSettings os env fs = Except.ok c := by
  obtain ⟨r, hr⟩ := find_cubemx_no_error os env fs hex hdir
  have hdet : detected_cubemx os env fs
      = Except.ok (if r = "" then fallbackCubemx os fs.home else r) := by
    simp [detected_cubemx, hr]
  have hbase : baseConfig os env fs = Except.ok
      { app := { platformio_cmd := "platformio"
                 cubemx_cmd := if r = "" then fallbackCubemx os fs.home else r
                 java_cmd := detected_java os fs
                   (if r = "" then fallbackCubemx os fs.home else r) }
        project := defaultProject } := by
    simp [baseConfig, hdet]
  cases hmarker : env.get "PIPELINE_WORKSPACE" with
  | none => exact ⟨_, by (simp [loadSettings, hbase, ciOverride, hmarker]; rfl)⟩
  | some w =>
    have hcne := hci (by simp [hmarker])
    cases hcache : env.get "STM32PIO_CUBEMX_CACHE_FOLDER" with
    | none => exact absurd hcache hcne
    | some cache =>
      have hmix : ∃ m, ciPatchMixin env fs = Except.ok m := by
        cases htc : env.get "STM32PIO_TEST_CASE" with
        | none => exact ⟨"", by simp [ciPatchMixin, htc]⟩
        | some tc =>
          cases hpe : fs.pathExists (pjoin (pjoin
              ((env.get "STM32PIO_TEST_FIXTURES").getD
                (pjoin fs.moduleDir "../../tests/fixtures")) tc)
              "platformio.ini.lockfile") with
          | none => exact absurd hpe (hex _)
          | some b =>
            cases b
            · exact ⟨"", by simp [ciPatchMixin, htc, hpe]⟩
            · cases hrt : fs.readText (pjoin (pjoin
                  ((env.get "STM32PIO_TEST_FIXTURES").getD
                    (pjoin fs.moduleDir "../../tests/fixtures")) tc)
                  "platformio.ini.lockfile") with
              | none => exact absurd hrt (hread _)
              | some t => exact ⟨_, by (simp [ciPatchMixin, htc, hpe, hrt]; rfl)⟩
      obtain ⟨m, hm⟩ := hmix
      exact ⟨_, by (simp [loadSettings, hbase, ciOverride, hmarker, hcache, hm]; rfl)⟩

/-- Witness for the amended claim C1. -/
theorem load_no_error_of_probes_ok_witness :
    ∃ c, loadSettings "Linux" envEmpty fsNone = Except.ok c :=
  load_no_error_of_probes_ok "Linux" envEmpty fsNone
    (fun _ => by simp [fsNone]) (fun _ => by simp [fsNone])
    (fun _ => by simp [fsNone]) (fun h => absurd rfl h)

/-- Claim C2 (corrected), counterexample: a filesystem-access error raised
while probing the path named by the first candidate environment variable
escapes `_find_cubemx_executable` (the `try/except` only guards the
conventional-locations loop, source lines 80-86, not lines 35-52). -/
theorem env_probe_error_escapes_locator :
    find_cubemx_executable "Linux" envProbeRaise fsProbeRaise
      = Except.error () := by rfl

/-- Claim C2 (amended): `_find_cubemx_executable` raises exactly when its
environment-variable probing stage raises; filesystem errors in the
search-path and conventional-locations steps never escape (they are swallowed
and treated as "does not exist"). -/
theorem locator_error_iff_env_stage_error (os : String) (env : Env) (fs : FS)
    (e : Unit) :
    find_cubemx_executable os env fs = Except.error e ↔
      envStage fs env env_vars = Except.error e := by
  cases hs : envStage fs env env_vars with
  | error e2 =>
    simp only [find_cubemx_executable, hs]
  | ok o =>
    cases o with
    | none =>
      simp only [find_cubemx_executable, hs]
      constructor
      · intro h
        cases hp : pathStage os fs with
        | some wv => rw [hp] at h; exact Except.noConfusion h
        | none =>
          rw [hp] at h
          cases hcm : probeCommon fs (commonLocations os env fs) with
          | some r => rw [hcm] at h; exact Except.noConfusion h
          | none => rw [hcm] at h; exact Except.noConfusion h
      · intro h; exact Except.noConfusion h
    | some r =>
      simp only [find_cubemx_executable, hs]
      constructor
      · intro h; exact Except.noConfusion h
      · intro h; exact Except.noConfusion h

/-- The environment with one variable removed; used to state that a
non-matching variable is skipped "exactly as if it had not been set". -/
def dropVar (env : Env) (v : String) : Env :=
  ⟨fun w => if w = v then none else env.get w⟩

/-- Claim C3: if a candidate environment variable is set to a non-empty value
naming an existing file (not a directory), and every earlier variable in the
priority order yields nothing, the locator returns exactly that path — the
search-path and conventional-location stages (arbitrary here, since `fs` is
unconstrained on them) are never consulted. -/
theorem env_file_wins_locator (os : String) (env : Env) (fs : FS)
    (l₁ l₂ : List String) (v val : String)
    (hsplit : env_vars = l₁ ++ v :: l₂)
    (hprev : ∀ w ∈ l₁, probeEnvVar fs env w = Except.ok none)
    (hval : env.get v = some val) (hne : val ≠ "")
    (hex : fs.pathExists val = some true) (hdir : fs.isDir val = some false) :
    find_cubemx_executable os env fs = Except.ok val := by
  have hv : probeEnvVar fs env v = Except.ok (some val) := by
    simp [probeEnvVar, hval, hne, hex, hdir]
  have hstage : envStage fs env env_vars = Except.ok (some val) := by
    rw [hsplit, envStage_append_skip fs env l₁ (v :: l₂) hprev]
    simp [envStage, hv]
  simp [find_cubemx_executable, hstage]

/-- Third candidate variable names an existing file; PATH would also hit. -/
def envC3 : Env :=
  ⟨fun s => if s = "STM32_CUBEMX" then some "/opt/cubemx" else none⟩

/-- Filesystem for the C3 witness: the variable's file exists, and the
search path would also yield a (different) hit, which must be ignored. -/
def fsC3 : FS :=
  { pathExists := fun p => if p = "/opt/cubemx" then some true else some false
    isDir := fun _ => some false
    isExec := fun _ => false
    which := fun _ => some "/elsewhere/STM32CubeMX"
    readText := fun _ => some ""
    home := "/home/user"
    moduleDir := "/mod" }

/-- Witness for claim C3. -/
theorem env_file_wins_locator_witness :
    find_cubemx_executable "Linux" envC3 fsC3 = Except.ok "/opt/cubemx" :=
  env_file_wins_locator "Linux" envC3 fsC3
    ["STM32CUBEMX_HOME", "STM32_CUBEMX_HOME"]
    ["STM32CUBEMX", "STM32_CUBEMX_PATH", "STM32CUBEMX_PATH"]
    "STM32_CUBEMX" "/opt/cubemx"
    (by decide) (by decide) (by decide) (by decide) (by decide) (by decide)

/-- Claim C4: when the locator comes back empty, `cubemx_cmd` in the default
configuration is the hardcoded platform-specific fallback, which is non-empty
on each of the three supported OS families and empty on any other platform. -/
theorem cubemx_fallback_defaults (os : String) (env : Env) (fs : FS)
    (h : find_cubemx_executable os env fs = Except.ok "") :
    (baseConfig os env fs).map (fun c => c.app.cubemx_cmd)
        = Except.ok (fallbackCubemx os fs.home)
    ∧ ((os = "Windows" ∨ os = "Darwin" ∨ os = "Linux") →
        fallbackCubemx os fs.home ≠ "")
    ∧ (os ≠ "Windows" → os ≠ "Darwin" → os ≠ "Linux" →
        fallbackCubemx os fs.home = "") := by
  refine ⟨?_, ?_, ?_⟩
  · simp [baseConfig, detected_cubemx, h, Except.map]
  · rintro (rfl | rfl | rfl)
    · simp [fallbackCubemx]
    · simp [fallbackCubemx]
    · have hp := pjoin_ne_empty (a := fs.home) (b := "STM32CubeMX/STM32CubeMX") (by decide)
      simpa [fallbackCubemx] using hp
  · intro h1 h2 h3
    simp [fallbackCubemx, h1, h2, h3]

/-- Witness for claim C4 (Linux, nothing found anywhere). -/
theorem cubemx_fallback_defaults_witness :
    (baseConfig "Linux" envEmpty fsNone).map (fun c => c.app.cubemx_cmd)
        = Except.ok (fallbackCubemx "Linux" fsNone.home)
    ∧ (("Linux" = "Windows" ∨ "Linux" = "Darwin" ∨ "Linux" = "Linux") →
        fallbackCubemx "Linux" fsNone.home ≠ "")
    ∧ ("Linux" ≠ "Windows" → "Linux" ≠ "Darwin" → "Linux" ≠ "Linux" →
        fallbackCubemx "Linux" fsNone.home = "") :=
  cubemx_fallback_defaults "Linux" envEmpty fsNone (by decide)

/-- Claim C5: when the bundled-java locator comes back empty, `java_cmd` in
the default configuration is the fixed jre path on Windows and the literal
string sentinel "None" on every other platform — a non-empty value. -/
theorem java_fallback_defaults (os : String) (env : Env) (fs : FS)
    (cubemx : String)
    (hd : detected_cubemx os env fs = Except.ok cubemx)
    (hj : find_java_bundled_with_cubemx os fs cubemx = "") :
    (baseConfig os env fs).map (fun c => c.app.java_cmd)
        = Except.ok (if os = "Windows"
            then "C:/Program Files/STMicroelectronics/STM32Cube/STM32CubeMX/jre/bin/java.exe"
            else "None")
    ∧ (if os = "Windows"
        then "C:/Program Files/STMicroelectronics/STM32Cube/STM32CubeMX/jre/bin/java.exe"
        else "None") ≠ "" := by
  constructor
  · simp [baseConfig, hd, detected_java, hj, Except.map]
  · split <;> decide

/-- Witness for claim C5 (Linux, locator empty, sentinel "None"). -/
theorem java_fallback_defaults_witness :
    (baseConfig "Linux" envEmpty fsNone).map (fun c => c.app.java_cmd)
        = Except.ok (if "Linux" = "Windows"
            then "C:/Program Files/STMicroelectronics/STM32Cube/STM32CubeMX/jre/bin/java.exe"
            else "None")
    ∧ (if "Linux" = "Windows"
        then "C:/Program Files/STMicroelectronics/STM32Cube/STM32CubeMX/jre/bin/java.exe"
        else "None") ≠ "" :=
  java_fallback_defaults "Linux" envEmpty fsNone
    "/home/user/STM32CubeMX/STM32CubeMX" (by decide) (by decide)

/-- Claim C9: the bundled-java locator returns empty on an empty primary path
without touching the filesystem (the result is the same for every filesystem);
on a non-empty path it returns empty exactly when no fixed candidate both
exists and is executable, and the first such candidate otherwise. -/
theorem java_locator_spec (os : String) (fs fsb : FS) (p : String)
    (hp : p ≠ "") :
    find_java_bundled_with_cubemx os fs "" = ""
    ∧ find_java_bundled_with_cubemx os fs "" = find_java_bundled_with_cubemx os fsb ""
    ∧ (find_java_bundled_with_cubemx os fs p = "" ↔
        ∀ c ∈ javaCandidates os p, ¬ okCand fs c)
    ∧ ∀ l₁ c l₂, javaCandidates os p = l₁ ++ c :: l₂ → okCand fs c →
        (∀ x ∈ l₁, ¬ okCand fs x) → find_java_bundled_with_cubemx os fs p = c := by
  refine ⟨rfl, rfl, ?_, ?_⟩
  · simp only [find_java_bundled_with_cubemx, if_neg hp]
    exact firstExecOk_eq_empty_iff fs _ (javaCandidates_ne_empty os p)
  · intro l₁ c l₂ hsplit hok hl
    simp only [find_java_bundled_with_cubemx, if_neg hp, hsplit]
    exact firstExecOk_append_first fs l₁ l₂ c hok hl

/-- Filesystem for the C9 witness: only `/opt/x/jre/bin/java` exists and is
executable. -/
def fsJava : FS :=
  { pathExists := fun p => if p = "/opt/x/jre/bin/java" then some true else some false
    isDir := fun _ => some false
    isExec := fun p => if p = "/opt/x/jre/bin/java" then true else false
    which := fun _ => none
    readText := fun _ => some ""
    home := "/home/user"
    moduleDir := "/mod" }

/-- Witness for claim C9: the locator returns the first existing executable
candidate next to the given CubeMX path. -/
theorem java_locator_spec_witness :
    find_java_bundled_with_cubemx "Linux" fsJava "/opt/x/cubemx"
      = "/opt/x/jre/bin/java" :=
  (java_locator_spec "Linux" fsJava fsNone "/opt/x/cubemx" (by decide)).2.2.2
    [] "/opt/x/jre/bin/java" ["/opt/jre/bin/java", "/opt/x/jre/bin/java"]
    (by decide) (by decide) (by decide)

/-- Claim C10: a candidate environment variable naming an existing directory
in which none of the three conventional executable filenames exists is
skipped: the locator behaves exactly as if that variable had not been set
(same result as with the variable removed from the environment). -/
theorem env_dir_no_candidate_skipped (os : String) (env : Env) (fs : FS)
    (v val : String)
    (hv : v ∈ env_vars) (hval : env.get v = some val) (hne : val ≠ "")
    (hex : fs.pathExists val = some true) (hdir : fs.isDir val = some true)
    (hcands : ∀ c ∈ dirCandidates val, fs.pathExists c = some false) :
    find_cubemx_executable os env fs
      = find_cubemx_executable os (dropVar env v) fs := by
  have hkey : probeEnvVar fs env v = Except.ok none := by
    simp [probeEnvVar, hval, hne, hex, hdir,
      probeCandidates_all_false fs (dirCandidates val) hcands]
  have hkey2 : probeEnvVar fs (dropVar env v) v = Except.ok none := by
    simp [probeEnvVar, dropVar]
  have hstage : envStage fs env env_vars = envStage fs (dropVar env v) env_vars := by
    apply envStage_congr
    intro w hw
    by_cases hwv : w = v
    · subst hwv; rw [hkey, hkey2]
    · exact probeEnvVar_congr fs env (dropVar env v) w (by simp [dropVar, hwv])
  have hla : (dropVar env v).get "LOCALAPPDATA" = env.get "LOCALAPPDATA" := by
    simp [dropVar, Ne.symm (mem_env_vars_ne_localappdata hv)]
  have hcl : commonLocations os env fs = commonLocations os (dropVar env v) fs := by
    simp only [commonLocations, hla]
  simp only [find_cubemx_executable, hstage, hcl]

/-- The first candidate variable names a directory with no executable in it;
a conventional Linux location exists instead. -/
def envC10 : Env :=
  ⟨fun s => if s = "STM32CUBEMX_HOME" then some "/opt/dir" else none⟩

/-- Filesystem for the C10 witness. -/
def fsC10 : FS :=
  { pathExists := fun p =>
      if p = "/opt/dir" then some true
      else if p = "/usr/bin/STM32CubeMX" then some true
      else some false
    isDir := fun p => if p = "/opt/dir" then some true else some false
    isExec := fun _ => false
    which := fun _ => none
    readText := fun _ => some ""
    home := "/home/user"
    moduleDir := "/mod" }

/-- Witness for claim C10. -/
theorem env_dir_no_candidate_skipped_witness :
    find_cubemx_executable "Linux" envC10 fsC10
      = find_cubemx_executable "Linux" (dropVar envC10 "STM32CUBEMX_HOME") fsC10 :=
  env_dir_no_candidate_skipped "Linux" envC10 fsC10 "STM32CUBEMX_HOME" "/opt/dir"
    (by decide) (by decide) (by decide) (by decide) (by decide) (by decide)

/-- Claim C6: under the CI marker with the cache folder set to "/cache", the
resulting app section has `cubemx_cmd = "/cache/STM32CubeMX.exe"` (path join
of the cache folder with the fixed executable name), `java_cmd = "java"`, and
`platformio_cmd = "platformio"`. -/
theorem ci_app_section_values (os : String) (env : Env) (fs : FS)
    (w : String) (c : Config)
    (hw : env.get "PIPELINE_WORKSPACE" = some w)
    (hc : env.get "STM32PIO_CUBEMX_CACHE_FOLDER" = some "/cache")
    (hl : loadSettings os env fs = Except.ok c) :
    c.app.cubemx_cmd = "/cache/STM32CubeMX.exe"
    ∧ c.app.java_cmd = "java"
    ∧ c.app.platformio_cmd = "platformio" := by
  cases hb : baseConfig os env fs with
  | error e => simp [loadSettings, hb] at hl
  | ok cfg =>
    simp only [loadSettings, hb, ciOverride, hw, hc] at hl
    cases hm : ciPatchMixin env fs with
    | error e => simp [hm] at hl
    | ok mixin =>
      simp only [hm] at hl
      injection hl with h2
      subst h2
      exact ⟨rfl, rfl, rfl⟩

/-- The base (non-CI) configuration with nothing found on a Linux host:
fallback CubeMX path and the "None" java sentinel. -/
def cfgBase : Config :=
  { app := { platformio_cmd := "platformio"
             cubemx_cmd := "/home/user/STM32CubeMX/STM32CubeMX"
             java_cmd := "None" }
    project := defaultProject }

/-- The configuration after the CI override with cache folder "/cache" and no
test-case variable. -/
def cfgCI : Config := { app := ciApp "/cache", project := defaultProject }

/-- Witness for claim C6. -/
theorem ci_app_section_values_witness :
    cfgCI.app.cubemx_cmd = "/cache/STM32CubeMX.exe"
    ∧ cfgCI.app.java_cmd = "java"
    ∧ cfgCI.app.platformio_cmd = "platformio" :=
  ci_app_section_values "Linux" envCI fsNone "ws" cfgCI
    (by decide) (by decide) (by decide)

/-- Claim C7: absent the CI marker, loading returns exactly the non-CI default
configuration; present (with the cache variable set), the app section is
fully replaced by the CI mapping regardless of its prior values, and every
project field other than `platformio_ini_patch_content` is unchanged. -/
theorem ci_override_frame (os : String) (env : Env) (fs : FS) :
    (env.get "PIPELINE_WORKSPACE" = none →
      loadSettings os env fs = baseConfig os env fs)
    ∧ (∀ w cache c₀ c,
        env.get "PIPELINE_WORKSPACE" = some w →
        env.get "STM32PIO_CUBEMX_CACHE_FOLDER" = some cache →
        baseConfig os env fs = Except.ok c₀ →
        loadSettings os env fs = Except.ok c →
        c.app = ciApp cache
        ∧ c.project.cubemx_script_content = c₀.project.cubemx_script_content
        ∧ c.project.board = c₀.project.board
        ∧ c.project.ioc_file = c₀.project.ioc_file
        ∧ c.project.cleanup_ignore = c₀.project.cleanup_ignore
        ∧ c.project.cleanup_use_git = c₀.project.cleanup_use_git
        ∧ c.project.inspect_ioc = c₀.project.inspect_ioc) := by
  constructor
  · intro hnone
    cases hb : baseConfig os env fs with
    | error e => simp [loadSettings, hb, ciOverride, hnone]
    | ok cfg => simp [loadSettings, hb, ciOverride, hnone]
  · intro w cache c₀ c hw hc hb hl
    simp only [loadSettings, hb, ciOverride, hw, hc] at hl
    cases hm : ciPatchMixin env fs with
    | error e => simp [hm] at hl
    | ok mixin =>
      simp only [hm] at hl
      injection hl with h2
      subst h2
      exact ⟨rfl, rfl, rfl, rfl, rfl, rfl, rfl⟩

/-- Witness for claim C7 (CI branch, cache folder "/cache"). -/
theorem ci_override_frame_witness :
    cfgCI.app = ciApp "/cache"
    ∧ cfgCI.project.cubemx_script_content = cfgBase.project.cubemx_script_content
    ∧ cfgCI.project.board = cfgBase.project.board
    ∧ cfgCI.project.ioc_file = cfgBase.project.ioc_file
    ∧ cfgCI.project.cleanup_ignore = cfgBase.project.cleanup_ignore
    ∧ cfgCI.project.cleanup_use_git = cfgBase.project.cleanup_use_git
    ∧ cfgCI.project.inspect_ioc = cfgBase.project.inspect_ioc :=
  (ci_override_frame "Linux" envCI fsNone).2 "ws" "/cache" cfgBase cfgCI
    (by decide) (by decide) (by decide) (by decide)

/-- Claim C8: under the CI override, the lock file's text, prefixed by a blank
line separator, is appended to `project.platformio_ini_patch_content` exactly
when the test-case variable resolves and the lock file at
`fixtures_root/test_case/platformio.ini.lockfile` exists (the fixtures root
resolving from its variable or from its built-in default); when the lock file
is missing or the test-case variable does not resolve, the field is
unchanged. -/
theorem ci_patch_mixin_spec (os : String) (env : Env) (fs : FS)
    (w cache : String) (c₀ c : Config)
    (hw : env.get "PIPELINE_WORKSPACE" = some w)
    (hc : env.get "STM32PIO_CUBEMX_CACHE_FOLDER" = some cache)
    (hb : baseConfig os env fs = Except.ok c₀)
    (hl : loadSettings os env fs = Except.ok c) :
    (∀ tc, env.get "STM32PIO_TEST_CASE" = some tc →
      (fs.pathExists (pjoin (pjoin ((env.get "STM32PIO_TEST_FIXTURES").getD
            (pjoin fs.moduleDir "../../tests/fixtures")) tc)
            "platformio.ini.lockfile") = some true →
        ∃ t, fs.readText (pjoin (pjoin
              ((env.get "STM32PIO_TEST_FIXTURES").getD
                (pjoin fs.moduleDir "../../tests/fixtures")) tc)
              "platformio.ini.lockfile") = some t
          ∧ c.project.platformio_ini_patch_content
            = c₀.project.platformio_ini_patch_content ++ ("\n\n" ++ t))
      ∧ (fs.pathExists (pjoin (pjoin ((env.get "STM32PIO_TEST_FIXTURES").getD
            (pjoin fs.moduleDir "../../tests/fixtures")) tc)
            "platformio.ini.lockfile") = some false →
        c.project.platformio_ini_patch_content
          = c₀.project.platformio_ini_patch_content))
    ∧ (env.get "STM32PIO_TEST_CASE" = none →
      c.project.platformio_ini_patch_content
        = c₀.project.platformio_ini_patch_content) := by
  simp only [loadSettings, hb, ciOverride, hw, hc] at hl
  have key : ∀ mixin, ciPatchMixin env fs = Except.ok mixin →
      c.project.platformio_ini_patch_content
        = c₀.project.platformio_ini_patch_content ++ mixin := by
    intro mixin hm
    simp only [hm] at hl
    injection hl with h2
    rw [← h2]
  have hmex : ∃ mixin, ciPatchMixin env fs = Except.ok mixin := by
    cases hm : ciPatchMixin env fs with
    | error e => simp [hm] at hl
    | ok mixin => exact ⟨mixin, rfl⟩
  obtain ⟨mixin, hm⟩ := hmex
  refine ⟨fun tc htc => ⟨fun hexi => ?_, fun hmiss => ?_⟩, fun hnone => ?_⟩
  · cases hrt : fs.readText (pjoin (pjoin
        ((env.get "STM32PIO_TEST_FIXTURES").getD
          (pjoin fs.moduleDir "../../tests/fixtures")) tc)
        "platformio.ini.lockfile") with
    | none =>
      simp [ciPatchMixin, htc, hexi, hrt] at hm
    | some t =>
      exact ⟨t, rfl, key _ (by simp [ciPatchMixin, htc, hexi, hrt])⟩
  · rw [key "" (by simp [ciPatchMixin, htc, hmiss]), String.append_empty]
  · rw [key "" (by simp [ciPatchMixin, hnone]), String.append_empty]

/-- CI environment with fixtures root and test case set. -/
def envC8 : Env :=
  ⟨fun s =>
    if s = "PIPELINE_WORKSPACE" then some "ws"
    else if s = "STM32PIO_CUBEMX_CACHE_FOLDER" then some "/cache"
    else if s = "STM32PIO_TEST_FIXTURES" then some "/fix"
    else if s = "STM32PIO_TEST_CASE" then some "case1"
    else none⟩

/-- Filesystem for the C8 witness: the lock file exists with content "LOCK". -/
def fsC8 : FS :=
  { pathExists := fun p =>
      if p = "/fix/case1/platformio.ini.lockfile" then some true else some false
    isDir := fun _ => some false
    isExec := fun _ => false
    which := fun _ => none
    readText := fun p =>
      if p = "/fix/case1/platformio.ini.lockfile" then some "LOCK" else some ""
    home := "/home/user"
    moduleDir := "/mod" }

/-- The configuration produced in the C8 witness scenario. -/
def cfgC8 : Config :=
  { app := ciApp "/cache"
    project := { defaultProject with
      platformio_ini_patch_content := platformio_ini_patch_default ++ "\n\nLOCK" } }

/-- Witness for claim C8: the lock content is appended after a blank line. -/
theorem ci_patch_mixin_spec_witness :
    ∃ t, fsC8.readText (pjoin (pjoin
          ((envC8.get "STM32PIO_TEST_FIXTURES").getD
            (pjoin fsC8.moduleDir "../../tests/fixtures")) "case1")
          "platformio.ini.lockfile") = some t
      ∧ cfgC8.project.platformio_ini_patch_content
        = cfgBase.project.platformio_ini_patch_content ++ ("\n\n" ++ t) :=
  ((ci_patch_mixin_spec "Linux" envC8 fsC8 "ws" "/cache" cfgBase cfgC8
      (by decide) (by decide) (by decide) (by decide)).1
    "case1" (by decide)).1 (by decide)

end Stm32pioSettings
